import Mathlib

/-!
Verification of the TeamVidya profile recomputation and risk
classification engine.

This file is a shallow embedding of the engine found in `app.py`,
`ml_model.py` and `setup_tool.py`:

* the attendance aggregator (`calculate_overall_attendance`, app.py
  lines 72-81; the same groupby/round computation is inlined in
  `run_initial_setup`, lines 47-52),
* the rule-based risk classifier (`calculate_risk`, app.py lines 83-87;
  duplicated as `create_target_label` in ml_model.py lines 29-32),
* the incremental recomputation cycle (`update_student_profiles`,
  app.py lines 89-112) with its partial-column upsert,
* the two seeding paths (`run_initial_setup` in app.py and
  `DataUploaderApp.run_setup_process` in setup_tool.py) with their
  differing default-fill policies, and
* the model artifact handling of ml_model.py
  (`train_and_save_model` / `load_model_and_predict`).

Pandas dataframes are modelled as lists of structures; nullable (NaN)
columns are modelled as `Option` fields, and pandas' convention that a
comparison against NaN is false is modelled explicitly.  Pandas
`groupby` (with its default `sort=True`) and numpy `unique` both
produce sorted, duplicate-free key lists, modelled by `sorted_unique`.
Python's `round` on the float series (numpy rounding) is
round-half-to-even, modelled exactly on rationals by `roundHalfEven`;
`astype(int)` truncation is modelled by natural-number division where
the source truncates.  The decision tree fitted by scikit-learn is
treated as an abstract per-row function (a parameter `fit`), while the
`LabelEncoder` is modelled exactly (sorted unique classes, index
lookup, error on an unseen label).
-/

/-- One row of the `daily_attendance` store: a per-day attendance event
(`{student_id, date, status}`), as read by `calculate_overall_attendance`
(app.py line 74). -/
structure AttendanceEvent where
  student_id : Nat
  date : String
  status : String
deriving DecidableEq

/-- One row of the derived attendance summary
(`summary[['student_id', 'attendance_percentage']]`, app.py line 81). -/
structure SummaryRow where
  student_id : Nat
  attendance_percentage : Nat
deriving DecidableEq

/-- Insert an element into a sorted duplicate-free list, keeping it
sorted and duplicate-free.  Building block for `sorted_unique`. -/
def insertUniqueSorted {α : Type} [LinearOrder α] (a : α) : List α → List α
  | [] => [a]
  | x :: xs =>
    if a = x then x :: xs
    else if a < x then a :: x :: xs
    else x :: insertUniqueSorted a xs

/-- The sorted list of distinct elements of `l`.  This is the key list
produced by pandas `groupby` (default `sort=True`, app.py line 77) and
by numpy/`LabelEncoder.fit` (`np.unique`, ml_model.py line 37). -/
def sorted_unique {α : Type} [LinearOrder α] (l : List α) : List α :=
  l.foldr insertUniqueSorted []

/-- `count(*)` of the attendance-event group of student `sid`
(the `total='count'` aggregate, app.py line 78). -/
def countTotal (events : List AttendanceEvent) (sid : Nat) : Nat :=
  (events.filter (fun e => e.student_id == sid)).length

/-- `count(status == 'Present')` of the attendance-event group of
student `sid` (the `present` aggregate, app.py line 78). -/
def countPresent (events : List AttendanceEvent) (sid : Nat) : Nat :=
  (events.filter (fun e => e.student_id == sid && e.status == "Present")).length

/-- Round-half-to-even of the rational `num / den`, on naturals.  This
is the rounding performed by `round(series)` (numpy round), applied in
app.py line 80 to `(present / total) * 100`. -/
def roundHalfEven (num den : Nat) : Nat :=
  if 2 * (num % den) < den then num / den
  else if den < 2 * (num % den) then num / den + 1
  else if (num / den) % 2 = 0 then num / den
  else num / den + 1

/-- The summary row the aggregator produces for student `sid`:
`attendance_percentage = round(100 * present / total)`. -/
def summaryRowOf (events : List AttendanceEvent) (sid : Nat) : SummaryRow :=
  { student_id := sid,
    attendance_percentage :=
      roundHalfEven (100 * countPresent events sid) (countTotal events sid) }

/-- `calculate_overall_attendance` (app.py lines 72-81): group the
event set by `student_id` and emit one summary row per group, with the
percentage computed as `round((present / total) * 100)`.  An empty
event store yields an empty summary (app.py line 75). -/
def calculate_overall_attendance (events : List AttendanceEvent) : List SummaryRow :=
  (sorted_unique (events.map (·.student_id))).map (summaryRowOf events)

/-- Pandas semantics of `row[col] < c` on a nullable column: a
comparison against NaN is false. -/
def ltNaN (x : Option Int) (c : Int) : Bool :=
  match x with
  | some v => decide (v < c)
  | none => false

/-- Pandas semantics of `row[col] > c` on a nullable column: a
comparison against NaN is false. -/
def gtNaN (x : Option Int) (c : Int) : Bool :=
  match x with
  | some v => decide (c < v)
  | none => false

/-- `calculate_risk` (app.py lines 83-87): the rule-based risk
classifier over the feature vector of one profile row.  The fields are
`Option Int` because the merged dataframe columns can contain NaN. -/
def calculate_risk (attendance_percentage average_score exam_attempts : Option Int) : String :=
  if ltNaN attendance_percentage 70 && ltNaN average_score 50 then "High"
  else if ltNaN attendance_percentage 75 || ltNaN average_score 60
      || gtNaN exam_attempts 3 then "Medium"
  else "Low"

/-- One stored row of the `students` table.  Every non-key column is
nullable in storage, hence `Option`. -/
structure StudentProfile where
  student_id : Nat
  name : Option String
  class_ : Option String
  mentor_email : Option String
  guardian_email : Option String
  fee_status : Option String
  attendance_percentage : Option Int
  average_score : Option Int
  exam_attempts : Option Int
  risk_level : Option String
deriving DecidableEq

/-- One record of `data_to_upload` (app.py lines 104-105): exactly the
columns `student_id`, `attendance_percentage`, `risk_level`. -/
structure PartialRow where
  student_id : Nat
  attendance_percentage : Int
  risk_level : String
deriving DecidableEq

/-- Look up the summary percentage for `sid` (the effect of the left
merge on `student_id`, app.py line 99). -/
def summaryLookup (summary : List SummaryRow) (sid : Nat) : Option Nat :=
  (summary.find? (fun r => r.student_id == sid)).map (·.attendance_percentage)

/-- The candidate partial row `update_student_profiles` computes for one
stored profile (app.py lines 98-105): if the summary is empty the merge
is skipped and the stored percentage is kept (`fillna(0)` filling only
a stored null); otherwise the stale percentage is dropped and the fresh
summary value is joined in (`fillna(0)` filling students absent from
the summary).  `risk_level` is recomputed by `calculate_risk` from the
resulting row. -/
def candidateOf (summary : List SummaryRow) (p : StudentProfile) : PartialRow :=
  let att : Int :=
    if summary = [] then (p.attendance_percentage).getD 0
    else ((summaryLookup summary p.student_id).map Int.ofNat).getD 0
  { student_id := p.student_id,
    attendance_percentage := att,
    risk_level := calculate_risk (some att) p.average_score p.exam_attempts }

/-- The full candidate batch of one recomputation cycle, one row per
stored profile in stored order (the dataframe `students_df` restricted
to `columns_to_update`, app.py lines 104-105). -/
def candidateRows (summary : List SummaryRow) (store : List StudentProfile) : List PartialRow :=
  store.map (candidateOf summary)

/-- Overwrite exactly the columns carried by a partial row
(`student_id` is the conflict key and unchanged). -/
def applyRow (p : StudentProfile) (r : PartialRow) : StudentProfile :=
  { p with
    attendance_percentage := some r.attendance_percentage,
    risk_level := some r.risk_level }

/-- A freshly inserted row for a student id not present in storage: the
columns missing from the upsert payload are null. -/
def blankProfile (sid : Nat) : StudentProfile :=
  ⟨sid, none, none, none, none, none, none, none, none, none⟩

/-- The partial-column upsert
(`supabase.from_('students').upsert(data_to_upload, on_conflict='student_id')`,
app.py line 107): a stored row in conflict with a payload row has only
the payload columns overwritten; a payload row without a conflicting
stored row is inserted with the remaining columns null. -/
def upsert_partial (store : List StudentProfile) (rows : List PartialRow) : List StudentProfile :=
  (store.map fun p =>
    match rows.find? (fun r => r.student_id == p.student_id) with
    | some r => applyRow p r
    | none => p)
  ++ ((rows.filter fun r => !(store.any fun p => p.student_id == r.student_id)).map fun r =>
      applyRow (blankProfile r.student_id) r)

/-- `update_student_profiles` (app.py lines 89-112), one incremental
recomputation cycle: aggregate the event store, read all stored
profiles (returning `False` without writing when there are none),
merge, classify, and reconcile via the partial-column upsert.  The
returned pair is (the function's boolean result, the resulting state of
the `students` table). -/
def update_student_profiles (events : List AttendanceEvent) (store : List StudentProfile) :
    Bool × List StudentProfile :=
  if store = [] then (false, store)
  else
    (true, upsert_partial store (candidateRows (calculate_overall_attendance events) store))

/-- One row of the base roster file `data/attendance.csv`
(`base_info_df`).  It carries the identity columns and a (stale)
`attendance_percentage` column that both seeding paths drop before
re-joining the fresh summary (app.py line 58, setup_tool.py line 180). -/
structure BaseRow where
  student_id : Nat
  name : String
  class_ : String
  mentor_email : String
  guardian_email : String
  attendance_percentage : Int
deriving DecidableEq

/-- One row of the score file `data/scores.csv` (`scores_df`):
`{student_id, average_score, exam_attempts, fee_status}`. -/
structure ScoreRow where
  student_id : Nat
  average_score : Int
  exam_attempts : Int
  fee_status : String
deriving DecidableEq

/-- One merged candidate profile produced by a seeding path
(`students_df` after the two merges and the fills).  Columns a left
join could leave null are `Option`; `risk_level` is `none` until the
classification step assigns it. -/
structure SeedProfile where
  student_id : Nat
  name : String
  class_ : String
  mentor_email : String
  guardian_email : String
  fee_status : Option String
  average_score : Option Int
  exam_attempts : Option Int
  attendance_percentage : Option Int
  risk_level : Option String
deriving DecidableEq

/-- The profile `run_initial_setup` (app.py lines 55-62) builds for one
base-roster row: left-join `scores.csv` on `student_id`, drop the stale
percentage and left-join the fresh summary, then
`attendance_percentage.fillna(0).astype(int)` (line 60),
`exam_attempts.fillna(0).astype(int)` (line 61), and
`risk_level = calculate_risk(row)` (line 62).  `average_score` and
`fee_status` are not filled: a student absent from the score file keeps
them null (NaN). -/
def seedRowApp (scores : List ScoreRow) (summary : List SummaryRow) (b : BaseRow) : SeedProfile :=
  let sc := scores.find? (fun s => s.student_id == b.student_id)
  let att : Int := ((summaryLookup summary b.student_id).map Int.ofNat).getD 0
  let attempts : Int := (sc.map (·.exam_attempts)).getD 0
  { student_id := b.student_id,
    name := b.name,
    class_ := b.class_,
    mentor_email := b.mentor_email,
    guardian_email := b.guardian_email,
    fee_status := sc.map (·.fee_status),
    average_score := sc.map (·.average_score),
    exam_attempts := some attempts,
    attendance_percentage := some att,
    risk_level := some (calculate_risk (some att) (sc.map (·.average_score)) (some attempts)) }

/-- The full profile set `run_initial_setup` uploads (app.py line 64):
one row per base-roster row, with the attendance summary computed from
the historical event file by the same groupby/round as the live
aggregator (app.py lines 47-51). -/
def run_initial_setup_profiles (base : List BaseRow) (scores : List ScoreRow)
    (events : List AttendanceEvent) : List SeedProfile :=
  base.map (seedRowApp scores (calculate_overall_attendance events))

/-- The attendance summary computed inside `run_setup_process`
(setup_tool.py lines 178-179): the percentage is the raw float
`(present / total) * 100`, never rounded; the later `astype(int)`
(line 183) truncates it, modelled by natural-number division. -/
def setup_attendance_summary (events : List AttendanceEvent) : List SummaryRow :=
  (sorted_unique (events.map (·.student_id))).map fun sid =>
    { student_id := sid,
      attendance_percentage := 100 * countPresent events sid / countTotal events sid }

/-- The merged profile `run_setup_process` (setup_tool.py lines
177-185) builds for one base-roster row: the same two left joins,
followed by
`fillna({'attendance_percentage': 0, 'average_score': 50, 'exam_attempts': 1, 'fee_status': 'Paid'})`
(line 181) and the integer casts (lines 183-185).  `risk_level` is not
set at this stage; the ML prediction step assigns it afterwards. -/
def seedRowTool (scores : List ScoreRow) (summary : List SummaryRow) (b : BaseRow) : SeedProfile :=
  let sc := scores.find? (fun s => s.student_id == b.student_id)
  let att : Int := ((summaryLookup summary b.student_id).map Int.ofNat).getD 0
  { student_id := b.student_id,
    name := b.name,
    class_ := b.class_,
    mentor_email := b.mentor_email,
    guardian_email := b.guardian_email,
    fee_status := some ((sc.map (·.fee_status)).getD "Paid"),
    average_score := some ((sc.map (·.average_score)).getD 50),
    exam_attempts := some ((sc.map (·.exam_attempts)).getD 1),
    attendance_percentage := some att,
    risk_level := none }

/-- The merged, default-filled candidate set of the desktop setup tool
(`students_df` after setup_tool.py line 185), before the ML prediction
step assigns `risk_level`. -/
def setup_merged_profiles (base : List BaseRow) (scores : List ScoreRow)
    (events : List AttendanceEvent) : List SeedProfile :=
  base.map (seedRowTool scores (setup_attendance_summary events))

/-- The training inputs of `train_and_save_model` (ml_model.py lines
15-16): the historical attendance file and the score file. -/
structure TrainingFiles where
  historical : List AttendanceEvent
  scores : List ScoreRow

/-- `LabelEncoder.fit` / `fit_transform` class extraction: the sorted
unique labels (`classes_`). -/
def label_encoder_classes (labels : List String) : List String :=
  sorted_unique labels

/-- `LabelEncoder.transform` of a single label: its index among the
learned classes, or `none` for the `ValueError` scikit-learn raises on
a label unseen at fit time. -/
def label_encoder_transform (classes : List String) (label : String) : Option Nat :=
  match classes with
  | [] => none
  | c :: cs =>
    if c = label then some 0
    else (label_encoder_transform cs label).map (· + 1)

/-- The rows of `training_data` (ml_model.py line 27): the inner merge
of the score file with the attendance summary keeps exactly the score
rows whose student has at least one historical event, in score-file
order. -/
def training_rows (files : TrainingFiles) : List ScoreRow :=
  files.scores.filter (fun s => (files.historical.map (·.student_id)).contains s.student_id)

/-- The persisted model artifacts (`risk_model.joblib` and
`fee_status_encoder.joblib`): the fitted decision tree, abstracted as a
function from the numeric feature vector
`(attendance_percentage, average_score, exam_attempts, fee_status_encoded)`
to a label, together with the encoder classes learned at fit time. -/
structure Artifacts where
  tree : Int → Int → Int → Nat → String
  classes : List String

/-- `train_and_save_model` (ml_model.py lines 7-55): build the training
rows, fit the encoder on their `fee_status` column (line 37) and fit
the decision tree (lines 45-48).  The numeric fitting procedure
(`train_test_split` plus `DecisionTreeClassifier.fit`) is abstracted as
the parameter `fit`, which sees the same training rows the source
fits on. -/
def train_and_save_model (fit : List ScoreRow → Int → Int → Int → Nat → String)
    (files : TrainingFiles) : Artifacts :=
  { tree := fit (training_rows files),
    classes := label_encoder_classes ((training_rows files).map (·.fee_status)) }

/-- One row of the dataframe handed to `load_model_and_predict`. -/
structure ProfileRow where
  student_id : Nat
  attendance_percentage : Int
  average_score : Int
  exam_attempts : Int
  fee_status : String
deriving DecidableEq

/-- `encoder.transform(df_copy['fee_status'])` (ml_model.py line 71)
batch encoding: every row's label is encoded against the learned
classes; one unseen label fails the whole batch (`ValueError`). -/
def encode_rows (classes : List String) : List ProfileRow → Option (List (ProfileRow × Nat))
  | [] => some []
  | r :: rs =>
    match label_encoder_transform classes r.fee_status, encode_rows classes rs with
    | some c, some rest => some ((r, c) :: rest)
    | _, _ => none

/-- `load_model_and_predict` (ml_model.py lines 57-75): load the
artifacts; on `FileNotFoundError` retrain from the data files and load
the freshly saved artifacts (lines 64-68) — if the data files are also
missing, the retrain saves nothing and the reload raises.  Then encode
`fee_status` with the loaded encoder and predict one label per row.
`artifact` is the state of the artifact store, `files` the
availability of the training data files. -/
def load_model_and_predict (fit : List ScoreRow → Int → Int → Int → Nat → String)
    (files : Option TrainingFiles) (artifact : Option Artifacts)
    (rows : List ProfileRow) : Except String (List String) :=
  let loaded : Except String Artifacts :=
    match artifact with
    | some a => .ok a
    | none =>
      match files with
      | some f => .ok (train_and_save_model fit f)
      | none => .error "FileNotFoundError"
  match loaded with
  | .error e => .error e
  | .ok a =>
    match encode_rows a.classes rows with
    | none => .error "ValueError: unseen fee_status label"
    | some encoded =>
      .ok (encoded.map fun rc =>
        a.tree rc.1.attendance_percentage rc.1.average_score rc.1.exam_attempts rc.2)

/-- Pandas `pd.merge(left, right, on=key)` at the schema level:
columns shared by both sides other than the key are emitted twice,
suffixed `_x` (left) and `_y` (right); all other columns keep their
names. -/
def merge_columns (left right : List String) (key : String) : List String :=
  (left.map fun c => if c ≠ key ∧ c ∈ right then c ++ "_x" else c)
  ++ ((right.filter fun c => c != key).map fun c => if c ∈ left then c ++ "_y" else c)

/-- `df.drop(columns=[c])` at the schema level. -/
def drop_column (cols : List String) (c : String) : List String :=
  cols.filter (fun x => x != c)

/-- The columns of the attendance summary dataframe (app.py line 81). -/
def summary_columns : List String :=
  ["student_id", "attendance_percentage"]

/-- The columns of the stored `students` table. -/
def student_table_columns : List String :=
  ["student_id", "name", "class", "mentor_email", "guardian_email", "fee_status",
   "attendance_percentage", "average_score", "exam_attempts", "risk_level"]

/-- The column set of the candidate dataframe built by
`update_student_profiles` when it merges against already-reconciled
storage (app.py lines 98-99): drop the stale `attendance_percentage`
column, then left-merge the fresh summary on `student_id`. -/
def update_merge_columns (stored : List String) : List String :=
  merge_columns (drop_column stored "attendance_percentage") summary_columns "student_id"

theorem sorted_unique_cons {α : Type} [LinearOrder α] (x : α) (xs : List α) :
    sorted_unique (x :: xs) = insertUniqueSorted x (sorted_unique xs) := rfl

theorem mem_insertUniqueSorted {α : Type} [LinearOrder α] (a b : α) (l : List α) :
    b ∈ insertUniqueSorted a l ↔ b = a ∨ b ∈ l := by
  induction l with
  | nil => simp [insertUniqueSorted]
  | cons x xs ih =>
    simp only [insertUniqueSorted]
    split_ifs with h1 h2
    · subst h1
      simp only [List.mem_cons]
      tauto
    · simp only [List.mem_cons]
    · simp only [List.mem_cons, ih]
      tauto

theorem mem_sorted_unique {α : Type} [LinearOrder α] (l : List α) (b : α) :
    b ∈ sorted_unique l ↔ b ∈ l := by
  induction l with
  | nil => simp [sorted_unique]
  | cons x xs ih =>
    rw [sorted_unique_cons, mem_insertUniqueSorted, ih, List.mem_cons]

theorem sorted_insertUniqueSorted {α : Type} [LinearOrder α] (a : α) (l : List α)
    (h : l.Sorted (· < ·)) : (insertUniqueSorted a l).Sorted (· < ·) := by
  induction l with
  | nil => simp [insertUniqueSorted]
  | cons x xs ih =>
    rw [List.sorted_cons] at h
    simp only [insertUniqueSorted]
    split_ifs with h1 h2
    · exact List.sorted_cons.mpr h
    · refine List.sorted_cons.mpr ⟨?_, List.sorted_cons.mpr h⟩
      intro b hb
      rcases List.mem_cons.mp hb with rfl | hb
      · exact h2
      · exact lt_trans h2 (h.1 b hb)
    · refine List.sorted_cons.mpr ⟨?_, ih h.2⟩
      intro b hb
      rcases (mem_insertUniqueSorted a b xs).mp hb with rfl | hb
      · exact lt_of_le_of_ne (not_lt.mp h2) (fun e => h1 e.symm)
      · exact h.1 b hb

theorem sorted_sorted_unique {α : Type} [LinearOrder α] (l : List α) :
    (sorted_unique l).Sorted (· < ·) := by
  induction l with
  | nil => exact List.sorted_nil
  | cons x xs ih => exact sorted_insertUniqueSorted x _ ih

theorem nodup_sorted_unique {α : Type} [LinearOrder α] (l : List α) :
    (sorted_unique l).Nodup :=
  (sorted_sorted_unique l).nodup

theorem filter_beq_of_not_mem {α : Type} [DecidableEq α] (l : List α) (a : α) (ha : a ∉ l) :
    l.filter (fun x => x == a) = [] := by
  induction l with
  | nil => rfl
  | cons x xs ih =>
    have hxa : (x == a) = false := by
      simp only [beq_eq_false_iff_ne]
      rintro rfl
      exact ha (List.mem_cons_self x xs)
    rw [List.filter_cons, hxa]
    simp only [Bool.false_eq_true, if_false]
    exact ih (fun hm => ha (List.mem_cons_of_mem x hm))

theorem filter_beq_of_nodup {α : Type} [DecidableEq α] (l : List α) (h : l.Nodup) (a : α)
    (ha : a ∈ l) : l.filter (fun x => x == a) = [a] := by
  induction l with
  | nil => cases ha
  | cons x xs ih =>
    rw [List.nodup_cons] at h
    rcases List.mem_cons.mp ha with rfl | hm
    · rw [List.filter_cons, beq_self_eq_true]
      simp only [if_true]
      rw [filter_beq_of_not_mem xs a h.1]
    · have hxa : (x == a) = false := by
        simp only [beq_eq_false_iff_ne]
        rintro rfl
        exact h.1 hm
      rw [List.filter_cons, hxa]
      simp only [Bool.false_eq_true, if_false]
      exact ih h.2 hm

theorem filter_map_comm {α β : Type} (l : List α) (f : α → β) (p : β → Bool) :
    (l.map f).filter p = (l.filter (fun x => p (f x))).map f := by
  induction l with
  | nil => rfl
  | cons x xs ih =>
    simp only [List.map_cons, List.filter_cons, ih]
    by_cases hx : p (f x) = true
    · simp [hx]
    · simp [hx]

theorem countTotal_pos_iff (events : List AttendanceEvent) (sid : Nat) :
    0 < countTotal events sid ↔ sid ∈ events.map (·.student_id) := by
  unfold countTotal
  constructor
  · intro h
    obtain ⟨e, he⟩ := List.exists_mem_of_length_pos h
    rw [List.mem_filter] at he
    have : e.student_id = sid := by simpa using he.2
    exact this ▸ List.mem_map_of_mem (·.student_id) he.1
  · intro h
    obtain ⟨e, he, hid⟩ := List.mem_map.mp h
    apply List.length_pos.mpr
    intro hnil
    have : e ∈ (events.filter fun e => e.student_id == sid) := by
      rw [List.mem_filter]
      exact ⟨he, by simp [hid]⟩
    rw [hnil] at this
    cases this

theorem div_le_of_le_mul' (num den M : Nat) (h : num ≤ M * den) (hd : 0 < den) :
    num / den ≤ M := by
  have h1 : num / den ≤ M * den / den := Nat.div_le_div_right h
  rwa [Nat.mul_div_cancel _ hd] at h1

theorem div_lt_of_mod_ne (num den M : Nat) (h : num ≤ M * den) (hd : 0 < den)
    (hr : num % den ≠ 0) : num / den < M := by
  rcases Nat.lt_or_ge (num / den) M with hlt | hge
  · exact hlt
  · exfalso
    have hqM : num / den = M := le_antisymm (div_le_of_le_mul' num den M h hd) hge
    have hsum : den * M + num % den = num := by
      rw [← hqM, Nat.div_add_mod]
    have h2 : den * M + num % den ≤ den * M + 0 := by
      rw [Nat.add_zero]
      calc den * M + num % den = num := hsum
        _ ≤ M * den := h
        _ = den * M := Nat.mul_comm M den
    exact hr (Nat.le_zero.mp (Nat.le_of_add_le_add_left h2))

theorem roundHalfEven_le (num den M : Nat) (h : num ≤ M * den) (hd : 0 < den) :
    roundHalfEven num den ≤ M := by
  unfold roundHalfEven
  split_ifs with h1 h2 h3
  · exact div_le_of_le_mul' num den M h hd
  · exact div_lt_of_mod_ne num den M h hd (by omega)
  · exact div_le_of_le_mul' num den M h hd
  · exact div_lt_of_mod_ne num den M h hd (by omega)

theorem length_filter_mono {α : Type} (l : List α) (p q : α → Bool)
    (h : ∀ a, p a = true → q a = true) : (l.filter p).length ≤ (l.filter q).length := by
  induction l with
  | nil => exact le_rfl
  | cons x xs ih =>
    simp only [List.filter_cons]
    by_cases hp : p x = true
    · rw [hp, h x hp]
      simpa using ih
    · rw [Bool.not_eq_true] at hp
      rw [hp]
      by_cases hq : q x = true
      · rw [hq]
        simp only [if_true, Bool.false_eq_true, if_false, List.length_cons]
        exact Nat.le_succ_of_le ih
      · rw [Bool.not_eq_true] at hq
        rw [hq]
        simpa using ih

theorem countPresent_le_countTotal (events : List AttendanceEvent) (sid : Nat) :
    countPresent events sid ≤ countTotal events sid := by
  unfold countPresent countTotal
  apply length_filter_mono
  intro e he
  exact (Bool.and_eq_true _ _).mp he |>.1

/-- C1: the rule-based classifier returns `High` when
`attendance_percentage < 70` and `average_score < 50`; otherwise
`Medium` when `attendance_percentage < 75`, `average_score < 60` or
`exam_attempts > 3`; otherwise `Low` — with the `High` check evaluated
first. -/
theorem C1_rule_classifier (a s e : Int) :
    ((a < 70 ∧ s < 50) → calculate_risk (some a) (some s) (some e) = "High")
    ∧ (¬(a < 70 ∧ s < 50) → (a < 75 ∨ s < 60 ∨ 3 < e) →
        calculate_risk (some a) (some s) (some e) = "Medium")
    ∧ (¬(a < 70 ∧ s < 50) → ¬(a < 75 ∨ s < 60 ∨ 3 < e) →
        calculate_risk (some a) (some s) (some e) = "Low") := by
  simp only [calculate_risk, ltNaN, gtNaN, Bool.and_eq_true, Bool.or_eq_true,
    decide_eq_true_eq, or_assoc]
  refine ⟨fun h => ?_, fun h1 h2 => ?_, fun h1 h2 => ?_⟩
  · rw [if_pos h]
  · rw [if_neg h1, if_pos h2]
  · rw [if_neg h1, if_neg h2]

/-- Witness for C1: the three concrete precedence examples of the
claim, obtained from `C1_rule_classifier` at the literal inputs. -/
theorem C1_rule_classifier_witness :
    calculate_risk (some 65) (some 40) (some 1) = "High"
    ∧ calculate_risk (some 65) (some 80) (some 1) = "Medium"
    ∧ calculate_risk (some 90) (some 90) (some 1) = "Low" :=
  ⟨(C1_rule_classifier 65 40 1).1 (by decide),
   (C1_rule_classifier 65 80 1).2.1 (by decide) (by decide),
   (C1_rule_classifier 90 90 1).2.2 (by decide) (by decide)⟩

/-- C2: for every event set, the aggregator emits exactly one summary
row per student with at least one event; its percentage equals the
half-even rounding of `100 * present / total` and lies in `[0, 100]`
(the lower bound holds by the type); a student with zero events is
absent from the output. -/
theorem C2_attendance_aggregator (events : List AttendanceEvent) (sid : Nat) :
    (0 < countTotal events sid →
      (calculate_overall_attendance events).filter (fun r => r.student_id == sid)
          = [summaryRowOf events sid]
        ∧ (summaryRowOf events sid).attendance_percentage
            = roundHalfEven (100 * countPresent events sid) (countTotal events sid)
        ∧ (summaryRowOf events sid).attendance_percentage ≤ 100)
    ∧ (countTotal events sid = 0 →
      ∀ r ∈ calculate_overall_attendance events, r.student_id ≠ sid) := by
  constructor
  · intro h
    have hmem : sid ∈ events.map (·.student_id) := (countTotal_pos_iff events sid).mp h
    have hmemu : sid ∈ sorted_unique (events.map (·.student_id)) :=
      (mem_sorted_unique _ _).mpr hmem
    refine ⟨?_, rfl, ?_⟩
    · unfold calculate_overall_attendance
      rw [filter_map_comm]
      rw [show (fun x => (summaryRowOf events x).student_id == sid) = (fun x => x == sid)
        from rfl]
      rw [filter_beq_of_nodup _ (nodup_sorted_unique _) sid hmemu]
      rfl
    · show roundHalfEven (100 * countPresent events sid) (countTotal events sid) ≤ 100
      apply roundHalfEven_le _ _ _ _ h
      exact Nat.mul_le_mul_left 100 (countPresent_le_countTotal events sid)
  · intro h r hr
    unfold calculate_overall_attendance at hr
    obtain ⟨x, hx, rfl⟩ := List.mem_map.mp hr
    have hx' : x ∈ events.map (·.student_id) := (mem_sorted_unique _ _).mp hx
    show ¬(x = sid)
    rintro rfl
    have : 0 < countTotal events x := (countTotal_pos_iff events x).mpr hx'
    omega

/-- Witness for C2: a concrete event set in which student 1 has one
`Present` and one `Absent` event (50 percent) and student 3 has no
events, with both parts of `C2_attendance_aggregator` applied to it. -/
theorem C2_attendance_aggregator_witness :
    ((calculate_overall_attendance
          [⟨1, "d1", "Present"⟩, ⟨1, "d2", "Absent"⟩, ⟨2, "d1", "Present"⟩]).filter
        (fun r => r.student_id == 1)
        = [summaryRowOf [⟨1, "d1", "Present"⟩, ⟨1, "d2", "Absent"⟩, ⟨2, "d1", "Present"⟩] 1]
      ∧ (summaryRowOf [⟨1, "d1", "Present"⟩, ⟨1, "d2", "Absent"⟩, ⟨2, "d1", "Present"⟩] 1).attendance_percentage
          = roundHalfEven
              (100 * countPresent [⟨1, "d1", "Present"⟩, ⟨1, "d2", "Absent"⟩, ⟨2, "d1", "Present"⟩] 1)
              (countTotal [⟨1, "d1", "Present"⟩, ⟨1, "d2", "Absent"⟩, ⟨2, "d1", "Present"⟩] 1)
      ∧ (summaryRowOf [⟨1, "d1", "Present"⟩, ⟨1, "d2", "Absent"⟩, ⟨2, "d1", "Present"⟩] 1).attendance_percentage ≤ 100)
    ∧ (∀ r ∈ calculate_overall_attendance
          [⟨1, "d1", "Present"⟩, ⟨1, "d2", "Absent"⟩, ⟨2, "d1", "Present"⟩],
        r.student_id ≠ 3) :=
  ⟨(C2_attendance_aggregator
      [⟨1, "d1", "Present"⟩, ⟨1, "d2", "Absent"⟩, ⟨2, "d1", "Present"⟩] 1).1 (by decide),
   (C2_attendance_aggregator
      [⟨1, "d1", "Present"⟩, ⟨1, "d2", "Absent"⟩, ⟨2, "d1", "Present"⟩] 3).2 (by decide)⟩

theorem candidateRows_cons (summary : List SummaryRow) (q : StudentProfile)
    (t : List StudentProfile) :
    candidateRows summary (q :: t) = candidateOf summary q :: candidateRows summary t := rfl

theorem candidateOf_student_id (summary : List SummaryRow) (p : StudentProfile) :
    (candidateOf summary p).student_id = p.student_id := rfl

theorem find?_candidateRows (summary : List SummaryRow) (store : List StudentProfile)
    (h : (store.map (·.student_id)).Nodup) (p : StudentProfile) (hp : p ∈ store) :
    (candidateRows summary store).find? (fun r => r.student_id == p.student_id)
      = some (candidateOf summary p) := by
  induction store with
  | nil => cases hp
  | cons q t ih =>
    rw [List.map_cons, List.nodup_cons] at h
    rw [candidateRows_cons]
    by_cases hq : q.student_id = p.student_id
    · have hpq : p = q := by
        rcases List.mem_cons.mp hp with rfl | hm
        · rfl
        · exact absurd (hq ▸ List.mem_map_of_mem (·.student_id) hm) h.1
      subst hpq
      rw [List.find?_cons_of_pos _ (by simp [candidateOf_student_id])]
    · have hpt : p ∈ t := by
        rcases List.mem_cons.mp hp with rfl | hm
        · exact absurd rfl hq
        · exact hm
      rw [List.find?_cons_of_neg _ (by simp [candidateOf_student_id, hq])]
      exact ih h.2 hpt

theorem upsert_candidates_no_insert (summary : List SummaryRow) (store : List StudentProfile) :
    (candidateRows summary store).filter
        (fun r => !(store.any fun p => p.student_id == r.student_id)) = [] := by
  apply List.filter_eq_nil_iff.mpr
  intro r hr
  obtain ⟨p, hp, rfl⟩ := List.mem_map.mp hr
  have hany : (store.any fun q => q.student_id == (candidateOf summary p).student_id) = true :=
    List.any_eq_true.mpr ⟨p, hp, by simp [candidateOf_student_id]⟩
  simp [hany]

theorem upsert_candidates_eq_map (summary : List SummaryRow) (store : List StudentProfile)
    (h : (store.map (·.student_id)).Nodup) :
    upsert_partial store (candidateRows summary store)
      = store.map (fun p => applyRow p (candidateOf summary p)) := by
  unfold upsert_partial
  rw [upsert_candidates_no_insert summary store, List.map_nil, List.append_nil]
  apply List.map_congr_left
  intro p hp
  rw [find?_candidateRows summary store h p hp]

theorem update_student_profiles_eq (events : List AttendanceEvent)
    (store : List StudentProfile) (h : (store.map (·.student_id)).Nodup)
    (hne : store ≠ []) :
    update_student_profiles events store
      = (true, store.map fun p =>
          applyRow p (candidateOf (calculate_overall_attendance events) p)) := by
  unfold update_student_profiles
  rw [if_neg hne, upsert_candidates_eq_map _ _ h]

/-- C4: the incremental recomputation cycle writes only `student_id`,
`attendance_percentage` and `risk_level`; every other column of a
stored profile (its `name`, `class`, `mentor_email`, `guardian_email`,
`fee_status`, `average_score`, `exam_attempts`) keeps its prior stored
value.  The first conjunct says the profile is still present with all
frame columns intact; the second that every result row carrying its
`student_id` has those frame columns intact. -/
theorem C4_partial_upsert_frame (events : List AttendanceEvent)
    (store : List StudentProfile) (p : StudentProfile)
    (h : (store.map (·.student_id)).Nodup) (hp : p ∈ store) :
    (∃ q ∈ (update_student_profiles events store).2,
        q.student_id = p.student_id ∧ q.name = p.name ∧ q.class_ = p.class_
        ∧ q.mentor_email = p.mentor_email ∧ q.guardian_email = p.guardian_email
        ∧ q.fee_status = p.fee_status ∧ q.average_score = p.average_score
        ∧ q.exam_attempts = p.exam_attempts)
    ∧ (∀ q ∈ (update_student_profiles events store).2, q.student_id = p.student_id →
        q.name = p.name ∧ q.class_ = p.class_ ∧ q.mentor_email = p.mentor_email
        ∧ q.guardian_email = p.guardian_email ∧ q.fee_status = p.fee_status
        ∧ q.average_score = p.average_score ∧ q.exam_attempts = p.exam_attempts) := by
  have hne : store ≠ [] := by
    rintro rfl
    cases hp
  rw [update_student_profiles_eq events store h hne]
  constructor
  · exact ⟨applyRow p (candidateOf (calculate_overall_attendance events) p),
      List.mem_map_of_mem _ hp, rfl, rfl, rfl, rfl, rfl, rfl, rfl, rfl⟩
  · intro q hq hid
    obtain ⟨p', hp', rfl⟩ := List.mem_map.mp hq
    have hideq : p'.student_id = p.student_id := hid
    have : p' = p := List.inj_on_of_nodup_map h hp' hp hideq
    subst this
    exact ⟨rfl, rfl, rfl, rfl, rfl, rfl, rfl⟩

/-- Witness for C4: a two-student store in which student 1 has
`mentor_email = "a@x.com"`; after a recompute triggered by a new
attendance event, the mentor email (and every other frame column) is
unchanged. -/
theorem C4_partial_upsert_frame_witness :
    (∃ q ∈ (update_student_profiles [⟨1, "d1", "Present"⟩]
        [⟨1, some "Asha", some "10A", some "a@x.com", some "g@x.com", some "Paid",
            some 90, some 70, some 1, some "Low"⟩,
         ⟨2, some "Vikram", some "10B", some "b@x.com", some "h@x.com", some "Overdue",
            some 60, some 40, some 4, some "High"⟩]).2,
        q.student_id = 1 ∧ q.name = some "Asha" ∧ q.class_ = some "10A"
        ∧ q.mentor_email = some "a@x.com" ∧ q.guardian_email = some "g@x.com"
        ∧ q.fee_status = some "Paid" ∧ q.average_score = some 70
        ∧ q.exam_attempts = some 1)
    ∧ (∀ q ∈ (update_student_profiles [⟨1, "d1", "Present"⟩]
        [⟨1, some "Asha", some "10A", some "a@x.com", some "g@x.com", some "Paid",
            some 90, some 70, some 1, some "Low"⟩,
         ⟨2, some "Vikram", some "10B", some "b@x.com", some "h@x.com", some "Overdue",
            some 60, some 40, some 4, some "High"⟩]).2, q.student_id = 1 →
        q.name = some "Asha" ∧ q.class_ = some "10A" ∧ q.mentor_email = some "a@x.com"
        ∧ q.guardian_email = some "g@x.com" ∧ q.fee_status = some "Paid"
        ∧ q.average_score = some 70 ∧ q.exam_attempts = some 1) :=
  C4_partial_upsert_frame [⟨1, "d1", "Present"⟩]
    [⟨1, some "Asha", some "10A", some "a@x.com", some "g@x.com", some "Paid",
        some 90, some 70, some 1, some "Low"⟩,
     ⟨2, some "Vikram", some "10B", some "b@x.com", some "h@x.com", some "Overdue",
        some 60, some 40, some 4, some "High"⟩]
    ⟨1, some "Asha", some "10A", some "a@x.com", some "g@x.com", some "Paid",
        some 90, some 70, some 1, some "Low"⟩
    (by decide) (by decide)

theorem applyRow_applyRow (p : StudentProfile) (r : PartialRow) :
    applyRow (applyRow p r) r = applyRow p r := rfl

theorem candidateOf_applyRow (summary : List SummaryRow) (p : StudentProfile) :
    candidateOf summary (applyRow p (candidateOf summary p)) = candidateOf summary p := by
  by_cases hs : summary = []
  · subst hs
    simp [candidateOf, applyRow]
  · simp [candidateOf, applyRow, hs]

theorem map_student_id_applyRow (summary : List SummaryRow) (store : List StudentProfile) :
    (store.map fun p => applyRow p (candidateOf summary p)).map (·.student_id)
      = store.map (·.student_id) := by
  rw [List.map_map]
  rfl

/-- C5: idempotence of the recomputation cycle — with the event set and
the non-attendance columns unchanged, running `update_student_profiles`
a second time leaves the stored profile set exactly as after the first
run. -/
theorem C5_cycle_idempotent (events : List AttendanceEvent) (store : List StudentProfile)
    (h : (store.map (·.student_id)).Nodup) :
    (update_student_profiles events (update_student_profiles events store).2).2
      = (update_student_profiles events store).2 := by
  by_cases hne : store = []
  · subst hne
    rfl
  · rw [update_student_profiles_eq events store h hne]
    have h2 : ((store.map fun p =>
        applyRow p (candidateOf (calculate_overall_attendance events) p)).map
          (·.student_id)).Nodup := by
      rw [map_student_id_applyRow]
      exact h
    have hne2 : (store.map fun p =>
        applyRow p (candidateOf (calculate_overall_attendance events) p)) ≠ [] := by
      intro hc
      exact hne (List.map_eq_nil_iff.mp hc)
    rw [update_student_profiles_eq events _ h2 hne2]
    rw [List.map_map]
    apply List.map_congr_left
    intro p hp
    show applyRow (applyRow p (candidateOf (calculate_overall_attendance events) p))
        (candidateOf (calculate_overall_attendance events)
          (applyRow p (candidateOf (calculate_overall_attendance events) p)))
      = applyRow p (candidateOf (calculate_overall_attendance events) p)
    rw [candidateOf_applyRow]
    rfl

/-- Witness for C5: a concrete store and event set on which the second
run of the cycle provably changes nothing. -/
theorem C5_cycle_idempotent_witness :
    (update_student_profiles [⟨1, "d1", "Present"⟩, ⟨1, "d2", "Absent"⟩]
        (update_student_profiles [⟨1, "d1", "Present"⟩, ⟨1, "d2", "Absent"⟩]
          [⟨1, some "Asha", some "10A", some "a@x.com", some "g@x.com", some "Paid",
              some 90, some 45, some 1, none⟩]).2).2
      = (update_student_profiles [⟨1, "d1", "Present"⟩, ⟨1, "d2", "Absent"⟩]
          [⟨1, some "Asha", some "10A", some "a@x.com", some "g@x.com", some "Paid",
              some 90, some 45, some 1, none⟩]).2 :=
  C5_cycle_idempotent [⟨1, "d1", "Present"⟩, ⟨1, "d2", "Absent"⟩]
    [⟨1, some "Asha", some "10A", some "a@x.com", some "g@x.com", some "Paid",
        some 90, some 45, some 1, none⟩]
    (by decide)

theorem calculate_risk_mem_three (a s e : Option Int) :
    calculate_risk a s e = "Low" ∨ calculate_risk a s e = "Medium"
      ∨ calculate_risk a s e = "High" := by
  unfold calculate_risk
  split_ifs <;> simp

/-- C6: after a recomputation cycle every stored profile's `risk_level`
is one of exactly `Low`, `Medium`, `High` and equals `calculate_risk`
applied to that profile's current feature vector; and the cycle's
output does not depend on the prior `risk_level` values: overwriting
them all with an arbitrary value `r0` before the cycle yields the same
result. -/
theorem C6_risk_pure_function (events : List AttendanceEvent)
    (store : List StudentProfile) (h : (store.map (·.student_id)).Nodup) :
    (∀ q ∈ (update_student_profiles events store).2,
        q.risk_level = some (calculate_risk q.attendance_percentage q.average_score
          q.exam_attempts)
        ∧ (q.risk_level = some "Low" ∨ q.risk_level = some "Medium"
            ∨ q.risk_level = some "High"))
    ∧ (∀ r0 : Option String,
        (update_student_profiles events
            (store.map fun p => { p with risk_level := r0 })).2
          = (update_student_profiles events store).2) := by
  constructor
  · by_cases hne : store = []
    · subst hne
      intro q hq
      cases hq
    · rw [update_student_profiles_eq events store h hne]
      intro q hq
      obtain ⟨p, hp, rfl⟩ := List.mem_map.mp hq
      refine ⟨rfl, ?_⟩
      have hq1 : (applyRow p (candidateOf (calculate_overall_attendance events) p)).risk_level
          = some (calculate_risk
              (some ((candidateOf (calculate_overall_attendance events) p).attendance_percentage))
              p.average_score p.exam_attempts) := rfl
      rw [hq1]
      rcases calculate_risk_mem_three
          (some ((candidateOf (calculate_overall_attendance events) p).attendance_percentage))
          p.average_score p.exam_attempts with h1 | h1 | h1
      · exact Or.inl (by rw [h1])
      · exact Or.inr (Or.inl (by rw [h1]))
      · exact Or.inr (Or.inr (by rw [h1]))
  · intro r0
    by_cases hne : store = []
    · subst hne
      rfl
    · have hmapne : (store.map fun p => ({ p with risk_level := r0 } : StudentProfile)) ≠ [] :=
        fun hc => hne (List.map_eq_nil_iff.mp hc)
      have hmapnodup : ((store.map fun p => ({ p with risk_level := r0 } : StudentProfile)).map
          (·.student_id)).Nodup := by
        rw [List.map_map]
        exact h
      rw [update_student_profiles_eq events _ hmapnodup hmapne,
        update_student_profiles_eq events store h hne]
      rw [List.map_map]
      apply List.map_congr_left
      intro p hp
      rfl

/-- Witness for C6: a one-student store whose stale `risk_level` is
`High`; after the cycle the stored tier is recomputed from the current
feature vector, and replacing the stale tier beforehand changes
nothing. -/
theorem C6_risk_pure_function_witness :
    (∀ q ∈ (update_student_profiles [⟨1, "d1", "Present"⟩]
        [⟨1, some "Asha", some "10A", some "a@x.com", some "g@x.com", some "Paid",
            some 20, some 85, some 1, some "High"⟩]).2,
        q.risk_level = some (calculate_risk q.attendance_percentage q.average_score
          q.exam_attempts)
        ∧ (q.risk_level = some "Low" ∨ q.risk_level = some "Medium"
            ∨ q.risk_level = some "High"))
    ∧ (∀ r0 : Option String,
        (update_student_profiles [⟨1, "d1", "Present"⟩]
            (([⟨1, some "Asha", some "10A", some "a@x.com", some "g@x.com", some "Paid",
                some 20, some 85, some 1, some "High"⟩] : List StudentProfile).map
              fun p => { p with risk_level := r0 })).2
          = (update_student_profiles [⟨1, "d1", "Present"⟩]
              [⟨1, some "Asha", some "10A", some "a@x.com", some "g@x.com", some "Paid",
                  some 20, some 85, some 1, some "High"⟩]).2) :=
  C6_risk_pure_function [⟨1, "d1", "Present"⟩]
    [⟨1, some "Asha", some "10A", some "a@x.com", some "g@x.com", some "Paid",
        some 20, some 85, some 1, some "High"⟩]
    (by decide)

/-- C10: with an empty attendance event store the cycle skips the
re-join — each stored profile keeps its existing
`attendance_percentage` (filled to 0 only where it was already null)
and `risk_level` is recomputed from those retained values; with an
empty stored student set the cycle returns `False` and writes
nothing. -/
theorem C10_empty_event_store (events : List AttendanceEvent)
    (store : List StudentProfile) (h : (store.map (·.student_id)).Nodup) :
    (events = [] →
      (update_student_profiles events store).2
        = store.map fun p =>
            { p with
              attendance_percentage := some ((p.attendance_percentage).getD 0),
              risk_level := some (calculate_risk
                (some ((p.attendance_percentage).getD 0))
                p.average_score p.exam_attempts) })
    ∧ (store = [] → update_student_profiles events store = (false, store)) := by
  constructor
  · rintro rfl
    by_cases hne : store = []
    · subst hne
      rfl
    · rw [update_student_profiles_eq [] store h hne]
      apply List.map_congr_left
      intro p hp
      rfl
  · rintro rfl
    rfl

/-- Witness for C10: a student whose stored percentage is 80 keeps it
through a cycle with no events (and its risk is recomputed from it),
and the cycle on an empty store returns `false` unchanged. -/
theorem C10_empty_event_store_witness :
    ((update_student_profiles []
        [⟨1, some "Asha", some "10A", some "a@x.com", some "g@x.com", some "Paid",
            some 80, some 55, some 1, none⟩]).2
      = ([⟨1, some "Asha", some "10A", some "a@x.com", some "g@x.com", some "Paid",
            some 80, some 55, some 1, none⟩] : List StudentProfile).map (fun p =>
          { p with
            attendance_percentage := some ((p.attendance_percentage).getD 0),
            risk_level := some (calculate_risk
              (some ((p.attendance_percentage).getD 0))
              p.average_score p.exam_attempts) }))
    ∧ update_student_profiles [⟨1, "d1", "Present"⟩] [] = (false, []) :=
  ⟨(C10_empty_event_store []
      [⟨1, some "Asha", some "10A", some "a@x.com", some "g@x.com", some "Paid",
          some 80, some 55, some 1, none⟩] (by decide)).1 rfl,
   (C10_empty_event_store [⟨1, "d1", "Present"⟩] [] (by decide)).2 rfl⟩

theorem summaryLookup_map_none (ids : List Nat) (f : Nat → SummaryRow)
    (hf : ∀ x, (f x).student_id = x) (sid : Nat) (h : sid ∉ ids) :
    summaryLookup ((sorted_unique ids).map f) sid = none := by
  unfold summaryLookup
  have hfind : ((sorted_unique ids).map f).find? (fun r => r.student_id == sid) = none := by
    rw [List.find?_eq_none]
    intro r hr
    obtain ⟨x, hx, rfl⟩ := List.mem_map.mp hr
    simp only [hf x, beq_iff_eq]
    rintro rfl
    exact h ((mem_sorted_unique ids x).mp hx)
  rw [hfind]
  rfl

theorem summaryLookup_setup_none (events : List AttendanceEvent) (sid : Nat)
    (h : sid ∉ events.map (·.student_id)) :
    summaryLookup (setup_attendance_summary events) sid = none := by
  unfold setup_attendance_summary
  exact summaryLookup_map_none _ _ (fun _ => rfl) sid h

theorem summaryLookup_calc_none (events : List AttendanceEvent) (sid : Nat)
    (h : sid ∉ events.map (·.student_id)) :
    summaryLookup (calculate_overall_attendance events) sid = none := by
  unfold calculate_overall_attendance
  exact summaryLookup_map_none _ _ (fun _ => rfl) sid h

/-- Counterexample to C3: the claim asserts the defaults
`average_score = 50`, `exam_attempts = 1`, `fee_status = 'Paid'` for a
student absent from the score source in *every* recomputation or
seeding cycle, but in the web app's own seeding cycle
(`run_initial_setup`, app.py lines 60-61) such a student is filled
with `exam_attempts = 0` and `average_score` and `fee_status` are left
null.  Concrete input: one base-roster student with id 1, an empty
score file and an empty event file. -/
theorem C3_default_fill_counterexample :
    ¬ ∀ p ∈ run_initial_setup_profiles
        [⟨1, "Asha", "10A", "m@x.com", "g@x.com", 0⟩] [] [],
        p.average_score = some 50 ∧ p.exam_attempts = some 1
          ∧ p.fee_status = some "Paid" := by
  decide

/-- C3 (amended): the default-fill policy is per seeding path.  In the
desktop setup tool's cycle (setup_tool.py line 181) a student absent
from the score source gets `average_score = 50`, `exam_attempts = 1`,
`fee_status = 'Paid'`, and `attendance_percentage = 0` if also absent
from the attendance events.  In the web app's seeding cycle (app.py
lines 60-61) the same student instead gets `exam_attempts = 0` and
`attendance_percentage = 0`, while `average_score` and `fee_status`
remain null — so on that path the classifier can receive missing
values. -/
theorem C3_default_fill_amended (base : List BaseRow) (scores : List ScoreRow)
    (events : List AttendanceEvent) (b : BaseRow) (hb : b ∈ base)
    (habs : scores.find? (fun s => s.student_id == b.student_id) = none) :
    (∃ p ∈ setup_merged_profiles base scores events,
        p.student_id = b.student_id ∧ p.average_score = some 50
        ∧ p.exam_attempts = some 1 ∧ p.fee_status = some "Paid"
        ∧ (b.student_id ∉ events.map (·.student_id) →
            p.attendance_percentage = some 0))
    ∧ (∃ p ∈ run_initial_setup_profiles base scores events,
        p.student_id = b.student_id ∧ p.average_score = none
        ∧ p.exam_attempts = some 0 ∧ p.fee_status = none
        ∧ (b.student_id ∉ events.map (·.student_id) →
            p.attendance_percentage = some 0)) := by
  constructor
  · refine ⟨seedRowTool scores (setup_attendance_summary events) b,
      List.mem_map_of_mem _ hb, rfl, ?_, ?_, ?_, ?_⟩
    · simp [seedRowTool, habs]
    · simp [seedRowTool, habs]
    · simp [seedRowTool, habs]
    · intro hno
      simp [seedRowTool, habs, summaryLookup_setup_none events b.student_id hno]
  · refine ⟨seedRowApp scores (calculate_overall_attendance events) b,
      List.mem_map_of_mem _ hb, rfl, ?_, ?_, ?_, ?_⟩
    · simp [seedRowApp, habs]
    · simp [seedRowApp, habs]
    · simp [seedRowApp, habs]
    · intro hno
      simp [seedRowApp, habs, summaryLookup_calc_none events b.student_id hno]

/-- Witness for the amended C3: student 1 is on the roster but absent
from both the score file and the event file; the setup tool fills
50 / 1 / Paid / 0, while the web app's seeding fills 0 for
`exam_attempts` and `attendance_percentage` and leaves `average_score`
and `fee_status` null. -/
theorem C3_default_fill_amended_witness :
    (∃ p ∈ setup_merged_profiles [⟨1, "Asha", "10A", "m@x.com", "g@x.com", 0⟩] [] [],
        p.student_id = 1 ∧ p.average_score = some 50
        ∧ p.exam_attempts = some 1 ∧ p.fee_status = some "Paid"
        ∧ ((1 : Nat) ∉ ([] : List AttendanceEvent).map (·.student_id) →
            p.attendance_percentage = some 0))
    ∧ (∃ p ∈ run_initial_setup_profiles [⟨1, "Asha", "10A", "m@x.com", "g@x.com", 0⟩] [] [],
        p.student_id = 1 ∧ p.average_score = none
        ∧ p.exam_attempts = some 0 ∧ p.fee_status = none
        ∧ ((1 : Nat) ∉ ([] : List AttendanceEvent).map (·.student_id) →
            p.attendance_percentage = some 0)) :=
  C3_default_fill_amended [⟨1, "Asha", "10A", "m@x.com", "g@x.com", 0⟩] [] []
    ⟨1, "Asha", "10A", "m@x.com", "g@x.com", 0⟩ (by decide) (by decide)

theorem label_encoder_transform_none_iff (classes : List String) (label : String) :
    label_encoder_transform classes label = none ↔ label ∉ classes := by
  induction classes with
  | nil => simp [label_encoder_transform]
  | cons c cs ih =>
    simp only [label_encoder_transform]
    by_cases hc : c = label
    · subst hc
      simp
    · rw [if_neg hc, Option.map_eq_none', ih, List.mem_cons]
      have hlc : label ≠ c := fun e => hc e.symm
      tauto

theorem encode_rows_ok (classes : List String) (rows : List ProfileRow)
    (h : ∀ r ∈ rows, r.fee_status ∈ classes) :
    ∃ l, encode_rows classes rows = some l ∧ l.length = rows.length := by
  induction rows with
  | nil => exact ⟨[], rfl, rfl⟩
  | cons r rs ih =>
    obtain ⟨l, hl, hlen⟩ := ih (fun x hx => h x (List.mem_cons_of_mem r hx))
    have hr : r.fee_status ∈ classes := h r (List.mem_cons_self r rs)
    rcases hopt : label_encoder_transform classes r.fee_status with _ | c
    · rw [label_encoder_transform_none_iff] at hopt
      exact absurd hr hopt
    · refine ⟨(r, c) :: l, ?_, by simp [hlen]⟩
      simp only [encode_rows, hopt, hl]

theorem encode_rows_err (classes : List String) (rows : List ProfileRow)
    (r : ProfileRow) (hr : r ∈ rows) (hu : r.fee_status ∉ classes) :
    encode_rows classes rows = none := by
  induction rows with
  | nil => cases hr
  | cons x xs ih =>
    rcases List.mem_cons.mp hr with rfl | hm
    · have hnone : label_encoder_transform classes r.fee_status = none :=
        (label_encoder_transform_none_iff _ _).mpr hu
      simp only [encode_rows, hnone]
    · simp only [encode_rows, ih hm]
      cases label_encoder_transform classes x.fee_status <;> rfl

/-- C7: with the model artifact missing but the training data files
present, `load_model_and_predict` does not fail — it retrains on
demand and still returns one risk label per input row (provided every
row's `fee_status` is covered by the freshly learned encoding). -/
theorem C7_model_unavailable_recovery
    (fit : List ScoreRow → Int → Int → Int → Nat → String) (f : TrainingFiles)
    (rows : List ProfileRow)
    (hcov : ∀ r ∈ rows, r.fee_status ∈ (train_and_save_model fit f).classes) :
    ∃ out, load_model_and_predict fit (some f) none rows = .ok out
      ∧ out.length = rows.length := by
  obtain ⟨l, hl, hlen⟩ := encode_rows_ok (train_and_save_model fit f).classes rows hcov
  refine ⟨l.map (fun rc => (train_and_save_model fit f).tree rc.1.attendance_percentage
    rc.1.average_score rc.1.exam_attempts rc.2), ?_, by simp [hlen]⟩
  unfold load_model_and_predict
  simp only [hl]

/-- Witness for C7: a one-student training set and a one-row input with
a covered `fee_status`; the artifact store is empty (`none`) and the
call still returns one label. -/
theorem C7_model_unavailable_recovery_witness :
    ∃ out, load_model_and_predict (fun _ _ _ _ _ => "Low")
        (some ⟨[⟨1, "d1", "Present"⟩], [⟨1, 80, 1, "Paid"⟩]⟩) none
        [⟨1, 80, 80, 1, "Paid"⟩]
      = .ok out ∧ out.length = 1 :=
  C7_model_unavailable_recovery (fun _ _ _ _ _ => "Low")
    ⟨[⟨1, "d1", "Present"⟩], [⟨1, 80, 1, "Paid"⟩]⟩
    [⟨1, 80, 80, 1, "Paid"⟩] (by decide)

/-- C8: at inference time the category encoding learned at training
time is reused unchanged — with the artifact present the prediction is
independent of the training hook and of the data files — and an input
row whose `fee_status` was not seen at training time makes the
classification fail with an error instead of being silently mapped. -/
theorem C8_encoder_reuse_unseen_error
    (fit fit' : List ScoreRow → Int → Int → Int → Nat → String)
    (files files' : Option TrainingFiles) (a : Artifacts) (rows : List ProfileRow)
    (r : ProfileRow) (hr : r ∈ rows) (hunseen : r.fee_status ∉ a.classes) :
    load_model_and_predict fit files (some a) rows
        = .error "ValueError: unseen fee_status label"
    ∧ (∀ rows' : List ProfileRow,
        load_model_and_predict fit files (some a) rows'
          = load_model_and_predict fit' files' (some a) rows') := by
  constructor
  · have henc : encode_rows a.classes rows = none := encode_rows_err a.classes rows r hr hunseen
    unfold load_model_and_predict
    simp only [henc]
  · intro rows'
    rfl

/-- Witness for C8: an artifact whose encoder knows only `Paid`; a row
with `fee_status = "Overdue"` fails with the `ValueError`, and with the
artifact present the result ignores the training hook and files. -/
theorem C8_encoder_reuse_unseen_error_witness :
    load_model_and_predict (fun _ _ _ _ _ => "Low") none
        (some ⟨fun _ _ _ _ => "Low", ["Paid"]⟩) [⟨7, 80, 80, 1, "Overdue"⟩]
      = .error "ValueError: unseen fee_status label"
    ∧ (∀ rows' : List ProfileRow,
        load_model_and_predict (fun _ _ _ _ _ => "Low") none
            (some ⟨fun _ _ _ _ => "Low", ["Paid"]⟩) rows'
          = load_model_and_predict (fun _ _ _ _ _ => "Medium") (some ⟨[], []⟩)
              (some ⟨fun _ _ _ _ => "Low", ["Paid"]⟩) rows') :=
  C8_encoder_reuse_unseen_error (fun _ _ _ _ _ => "Low") (fun _ _ _ _ _ => "Medium")
    none (some ⟨[], []⟩) ⟨fun _ _ _ _ => "Low", ["Paid"]⟩ [⟨7, 80, 80, 1, "Overdue"⟩]
    ⟨7, 80, 80, 1, "Overdue"⟩ (by decide) (by decide)

/-- C9: the cycle's drop-then-join step never produces suffixed
duplicate columns.  For every stored column set, dropping
`attendance_percentage` and then merging the fresh summary on
`student_id` yields exactly the dropped columns followed by a single
new `attendance_percentage` — no pandas `_x`/`_y` renaming fires — and
on the concrete `students`-table schema no
`attendance_percentage_x`/`_y` column exists and
`attendance_percentage` appears exactly once. -/
theorem C9_drop_then_join_no_suffix (stored : List String) :
    update_merge_columns stored
      = drop_column stored "attendance_percentage" ++ ["attendance_percentage"]
    ∧ (∀ c ∈ update_merge_columns student_table_columns,
        c ≠ "attendance_percentage_x" ∧ c ≠ "attendance_percentage_y")
    ∧ (update_merge_columns student_table_columns).count "attendance_percentage" = 1 := by
  refine ⟨?_, by decide, by decide⟩
  unfold update_merge_columns merge_columns summary_columns drop_column
  have hnotin : "attendance_percentage" ∉
      stored.filter (fun x => x != "attendance_percentage") := by
    intro hmem
    have h2 := (List.mem_filter.mp hmem).2
    simp at h2
  have hmap : (stored.filter (fun x => x != "attendance_percentage")).map
      (fun c => if c ≠ "student_id" ∧ c ∈ ["student_id", "attendance_percentage"]
        then c ++ "_x" else c)
      = (stored.filter (fun x => x != "attendance_percentage")).map id := by
    apply List.map_congr_left
    intro c hc
    have h2 := (List.mem_filter.mp hc).2
    have hcne : c ≠ "attendance_percentage" := by simpa using h2
    rw [if_neg]
    · rfl
    · rintro ⟨hne, hmem⟩
      simp only [List.mem_cons, List.not_mem_nil, or_false] at hmem
      rcases hmem with h | h
      · exact hne h
      · exact hcne h
  rw [hmap, List.map_id]
  congr 1
  rw [show ((["student_id", "attendance_percentage"] : List String).filter
      (fun c => c != "student_id")) = ["attendance_percentage"] by decide]
  simp only [List.map_cons, List.map_nil]
  rw [if_neg hnotin]
